import Mathlib

/-!
Shallow embedding of the anyware-cli dual-mode session orchestrator.

The definitions below are transcribed from the TypeScript sources:
the message hand-off queue (src/utils/messageQueue.ts), the Session
permission relay (src/claude/session.ts), the remote launcher's
onPermissionRequest callback (src/claude/claudeRemoteLauncher.ts), the
WebSocket reconnect state machine (src/api/wsClient.ts), the transcript
session scanner (src/claude/claudeLocalLauncher.ts), the resume-retry
skeleton of claudeRemote (src/claude/claudeRemote.ts), and the hook HTTP
receiver (src/hooks/hookServer.ts).

Promise-based suspension is modelled by explicit state: a parked resolver
becomes a Boolean flag plus an explicit effect value recording what the
resolver was invoked with.  Wall-clock time is a Nat of milliseconds passed
in explicitly where the source calls Date.now().
-/

/-- Image attachment from the web UI (messageQueue.ts). -/
structure ImageAttachment where
  name : String
  mimeType : String
  data : String
deriving DecidableEq

/-- Queue message with optional images (messageQueue.ts). -/
structure QueueMessage where
  message : String
  images : Option (List ImageAttachment)
deriving DecidableEq

/-- State of a MessageQueue: the FIFO backlog, whether a waiter's resolver is
parked (`waitResolve !== null`), whether an onMessage callback is registered,
and the closed flag. -/
structure MessageQueue where
  queue : List QueueMessage
  waitResolve : Bool
  onMessageCallback : Bool
  closed : Bool
deriving DecidableEq

/-- A freshly constructed MessageQueue. -/
def MessageQueue.fresh : MessageQueue := ⟨[], false, false, false⟩

/-- Effects of one push call: the message handed to the onMessage callback
(if it was invoked) and the message a suspended waiter was resolved with
(if any). -/
structure PushEffect where
  callbackInvoked : Option QueueMessage
  resolvedWith : Option QueueMessage
deriving DecidableEq

/-- MessageQueue.push: no-op when closed; otherwise notify the callback,
then either resolve the parked waiter or append to the backlog. -/
def MessageQueue.push (q : MessageQueue) (message : String)
    (images : Option (List ImageAttachment)) : MessageQueue × PushEffect :=
  if q.closed then (q, ⟨none, none⟩)
  else
    let queueMsg : QueueMessage := ⟨message, images⟩
    let cb : Option QueueMessage := if q.onMessageCallback then some queueMsg else none
    if q.waitResolve then
      ({ q with waitResolve := false }, ⟨cb, some queueMsg⟩)
    else
      ({ q with queue := q.queue ++ [queueMsg] }, ⟨cb, none⟩)

/-- Result of one waitForMessage call: either the promise resolved at once
(with a message, or null when the queue is closed), or the call suspended. -/
inductive WaitOutcome
  | result (m : Option QueueMessage)
  | suspended
deriving DecidableEq

/-- MessageQueue.waitForMessage: null when closed, the backlog head when
available, otherwise the call suspends and parks its resolver. -/
def MessageQueue.waitForMessage (q : MessageQueue) : WaitOutcome × MessageQueue :=
  if q.closed then (.result none, q)
  else
    match q.queue with
    | m :: rest => (.result (some m), { q with queue := rest })
    | [] => (.suspended, { q with waitResolve := true })

/-- MessageQueue.size. -/
def MessageQueue.size (q : MessageQueue) : Nat := q.queue.length

/-- MessageQueue.reset: empties the backlog; when a waiter is suspended the
stored resolver is cleared first and then invoked with null.  The Boolean
records whether a waiter was resolved with null. -/
def MessageQueue.reset (q : MessageQueue) : MessageQueue × Bool :=
  if q.waitResolve then ({ q with queue := [], waitResolve := false }, true)
  else ({ q with queue := [] }, false)

/-- MessageQueue.close: sets the closed flag, then resets. -/
def MessageQueue.close (q : MessageQueue) : MessageQueue × Bool :=
  MessageQueue.reset { q with closed := true }

/-- A sequence of push calls, in order. -/
def MessageQueue.pushAll (q : MessageQueue)
    (xs : List (String × Option (List ImageAttachment))) : MessageQueue :=
  xs.foldl (fun acc p => (acc.push p.1 p.2).1) q

/-- A sequence of waitForMessage calls, collecting each call's outcome. -/
def MessageQueue.waitMany (q : MessageQueue) : Nat → List WaitOutcome × MessageQueue
  | 0 => ([], q)
  | Nat.succ k =>
    let r := q.waitForMessage
    let rest := r.2.waitMany k
    (r.1 :: rest.1, rest.2)

/-- An operation applied to a MessageQueue after some point in time. -/
inductive QueueOp
  | pushOp (message : String) (images : Option (List ImageAttachment))
  | waitOp
deriving DecidableEq

/-- The observable result of one queue operation. -/
inductive QueueOpResult
  | pushed (e : PushEffect)
  | waited (o : WaitOutcome)
deriving DecidableEq

/-- Run a sequence of push / waitForMessage operations, collecting results. -/
def runQueueOps (q : MessageQueue) : List QueueOp → MessageQueue × List QueueOpResult
  | [] => (q, [])
  | op :: ops =>
    match op with
    | .pushOp m imgs =>
      let r := q.push m imgs
      let rest := runQueueOps r.1 ops
      (rest.1, .pushed r.2 :: rest.2)
    | .waitOp =>
      let r := q.waitForMessage
      let rest := runQueueOps r.2 ops
      (rest.1, .waited r.1 :: rest.2)

/-- Permission response values relayed from the web UI (session.ts). -/
inductive PermissionResponse
  | yes
  | no
  | always
deriving DecidableEq

/-- Session permission-relay state (session.ts): whether a permission
resolver is outstanding, the parked response with its receipt time, the
per-session always-allowed tool cache, and the owned message queue. -/
structure Session where
  permissionResolver : Bool
  pendingPermissionResponse : Option (PermissionResponse × Nat)
  alwaysAllowedTools : List String
  queue : MessageQueue
deriving DecidableEq

/-- How an incoming permission_response message was delivered. -/
inductive PermissionDelivery
  | resolved (r : PermissionResponse)
  | parked
deriving DecidableEq

/-- The permission_response branch of Session.handleMessage: if a resolver is
outstanding it is cleared and fired with the response; otherwise the response
is parked together with the current time and the switch trigger fires. -/
def Session.handlePermissionResponse (s : Session) (now : Nat) (r : PermissionResponse) :
    Session × PermissionDelivery :=
  if s.permissionResolver then
    ({ s with permissionResolver := false }, .resolved r)
  else
    ({ s with pendingPermissionResponse := some (r, now) }, .parked)

/-- Session.hasPendingPermissionResponse. -/
def Session.hasPendingPermissionResponse (s : Session) : Bool :=
  s.pendingPermissionResponse.isSome

/-- The default TTL for a parked permission response (30 seconds). -/
def PERMISSION_RESPONSE_TTL_MS : Nat := 30000

/-- Session.consumePendingPermissionResponse: returns null when nothing is
parked; clears and returns null when the parked response is older than
maxAgeMs; otherwise clears the slot and returns the response. -/
def Session.consumePendingPermissionResponse (s : Session) (now maxAgeMs : Nat) :
    Option PermissionResponse × Session :=
  match s.pendingPermissionResponse with
  | none => (none, s)
  | some pending =>
    let ageMs := now - pending.2
    if maxAgeMs < ageMs then (none, { s with pendingPermissionResponse := none })
    else (some pending.1, { s with pendingPermissionResponse := none })

/-- Session.clearPendingPermissionResponse: with maxAgeMs = 0 the parked
response is always cleared; otherwise only when older than maxAgeMs. -/
def Session.clearPendingPermissionResponse (s : Session) (now maxAgeMs : Nat) : Session :=
  match s.pendingPermissionResponse with
  | none => s
  | some pending =>
    if maxAgeMs = 0 then { s with pendingPermissionResponse := none }
    else if maxAgeMs < now - pending.2 then { s with pendingPermissionResponse := none }
    else s

/-- Session.isToolAlwaysAllowed: AskUserQuestion is never auto-approved. -/
def Session.isToolAlwaysAllowed (s : Session) (toolName : String) : Bool :=
  if toolName = "AskUserQuestion" then false
  else s.alwaysAllowedTools.contains toolName

/-- Session.markToolAlwaysAllowed: never persists AskUserQuestion. -/
def Session.markToolAlwaysAllowed (s : Session) (toolName : String) : Session :=
  if toolName = "AskUserQuestion" then s
  else { s with alwaysAllowedTools := s.alwaysAllowedTools.insert toolName }

/-- The onPermissionRequest callback passed to claudeRemote by
claudeRemoteLauncher: returns early for an always-allowed tool, otherwise
unconditionally clears any parked permission response (maxAgeMs = 0), resets
the queue for AskUserQuestion, and sends the PermissionRequest event to the
web UI.  The Boolean records whether the event was sent. -/
def onPermissionRequest (s : Session) (now : Nat) (toolName : String) : Session × Bool :=
  if s.isToolAlwaysAllowed toolName then (s, false)
  else
    let s1 := s.clearPendingPermissionResponse now 0
    let s2 := if toolName = "AskUserQuestion" then { s1 with queue := s1.queue.reset.1 } else s1
    (s2, true)

/-- Reconnection state of the WebSocket client (wsClient.ts). -/
structure WSClientState where
  reconnectAttempts : Nat
  isIntentionallyClosed : Bool
deriving DecidableEq

/-- wsClient.ts: maxReconnects. -/
def maxReconnects : Nat := 50

/-- What the close handler does besides updating state. -/
inductive CloseAction
  | notifyCloseHandler
  | reconnectAfter (delayMs : Nat)
deriving DecidableEq

/-- The ws close handler: an intentional close notifies the close handler;
an unexpected close reconnects with linear backoff capped at 10 s while
attempts remain, else notifies the close handler and gives up. -/
def wsOnClose (s : WSClientState) : WSClientState × CloseAction :=
  if s.isIntentionallyClosed then (s, .notifyCloseHandler)
  else if s.reconnectAttempts < maxReconnects then
    let attempts := s.reconnectAttempts + 1
    ({ s with reconnectAttempts := attempts }, .reconnectAfter (min (1000 * attempts) 10000))
  else (s, .notifyCloseHandler)

/-- The ws open handler resets the attempt counter to zero. -/
def wsOnOpen (s : WSClientState) : WSClientState :=
  { s with reconnectAttempts := 0 }

/-- Caller-initiated close sets the intentional flag. -/
def wsClose (s : WSClientState) : WSClientState :=
  { s with isIntentionallyClosed := true }

/-- A validated transcript line (claudeLocalLauncher.ts RawJSONLines). -/
inductive RawJSONLine
  | user (uuid : String)
  | assistant (uuid : String)
  | system (uuid : String)
  | summary (leafUuid : String) (summaryText : String)
deriving DecidableEq

/-- messageKey: the stable dedup identifier of a transcript line. -/
def messageKey : RawJSONLine → String
  | .user u => u
  | .assistant u => u
  | .summary l s => "summary:" ++ l ++ ":" ++ s
  | .system u => u

/-- State of a session scanner: the processed-key set and the current
session id being watched. -/
structure SessionScanner where
  processedMessageKeys : List String
  currentSessionId : Option String
deriving DecidableEq

/-- The loop body of sync(): walk the file's messages in order, skip keys
already processed, add each new key and forward its message. -/
def syncFold (processed : List String) : List RawJSONLine → List String × List RawJSONLine
  | [] => (processed, [])
  | m :: rest =>
    let key := messageKey m
    if processed.contains key then syncFold processed rest
    else
      let r := syncFold (key :: processed) rest
      (r.1, m :: r.2)

/-- sync(): reads the current session's file and forwards unseen messages in
file order.  The filesystem is a function from session id to parsed lines. -/
def SessionScanner.sync (sc : SessionScanner) (fs : String → List RawJSONLine) :
    SessionScanner × List RawJSONLine :=
  match sc.currentSessionId with
  | none => (sc, [])
  | some sid =>
    let r := syncFold sc.processedMessageKeys (fs sid)
    ({ sc with processedMessageKeys := r.1 }, r.2)

/-- onNewSession: retargets to a different session file; the processed-key
set is kept across retargets. -/
def SessionScanner.onNewSession (sc : SessionScanner) (sessionId : String) : SessionScanner :=
  if sc.currentSessionId = some sessionId then sc
  else { sc with currentSessionId := some sessionId }

/-- One scanner operation: a sync pass over some filesystem state, or a
retarget to a new session id. -/
inductive ScanOp
  | syncOp (fs : String → List RawJSONLine)
  | newSessionOp (sessionId : String)

/-- Run a sequence of scanner operations, concatenating everything the
scanner forwarded via onMessage. -/
def runScanner (sc : SessionScanner) : List ScanOp → SessionScanner × List RawJSONLine
  | [] => (sc, [])
  | op :: ops =>
    match op with
    | .syncOp fs =>
      let r := sc.sync fs
      let rest := runScanner r.1 ops
      (rest.1, r.2 ++ rest.2)
    | .newSessionOp sid => runScanner (sc.onNewSession sid) ops

/-- Outcome of one runQuery invocation inside claudeRemote: normal
completion with a session result, or a thrown error. -/
inductive QueryOutcome
  | ok (sessionResult : Option String)
  | err
deriving DecidableEq

/-- What claudeRemote's retry skeleton produced: the returned value and the
(resume target, first message) pairs actually attempted, in order. -/
structure RemoteRunResult where
  result : Option String
  attempts : List (Option String × String)
deriving DecidableEq

/-- The try/catch retry skeleton of claudeRemote: run the query with the
resume target; on a throw, when a resume was attempted and the abort signal
is not set, retry once with no resume target and the same first message,
swallowing a second failure; otherwise return startFrom. -/
def claudeRemoteRetry (startFrom : Option String) (aborted : Bool) (firstMessage : String)
    (runQ : Option String → String → QueryOutcome) : RemoteRunResult :=
  match runQ startFrom firstMessage with
  | .ok r => ⟨r, [(startFrom, firstMessage)]⟩
  | .err =>
    if startFrom.isSome && !aborted then
      match runQ none firstMessage with
      | .ok r => ⟨r, [(startFrom, firstMessage), (none, firstMessage)]⟩
      | .err => ⟨startFrom, [(startFrom, firstMessage), (none, firstMessage)]⟩
    else ⟨startFrom, [(startFrom, firstMessage)]⟩

/-- Fields of a parsed hook body that the receiver reads (hookServer.ts). -/
structure HookData where
  session_id : Option String
  sessionId : Option String
  hook_event_name : Option String
deriving DecidableEq

/-- How reading the request body went: completed with a body string, or the
5-second read timeout fired first. -/
inductive BodyRead
  | timedOut
  | done (body : String)
deriving DecidableEq

/-- An incoming HTTP request as the hook receiver sees it. -/
structure HookRequest where
  method : String
  url : String
  read : BodyRead
deriving DecidableEq

/-- The response the receiver writes. -/
structure HookResponse where
  status : Nat
  body : String
deriving DecidableEq

/-- Callback invocations made while handling one request. -/
inductive HookEffect
  | sessionHook (sid : String)
  | hookEvent (eventType : String) (sid : String)
deriving DecidableEq

/-- The empty HookData object used when JSON parsing fails. -/
def emptyHookData : HookData := ⟨none, none, none⟩

/-- JavaScript truthiness of an optional string field: present and
non-empty. -/
def jsTruthy : Option String → Bool
  | none => false
  | some s => if s = "" then false else true

/-- The request handler of startHookServer: POST to /hook (or the legacy
/hook/session-start) answers 408 on a read timeout and otherwise 200 ok,
tolerating malformed JSON by treating the body as empty; every other
request is answered 404.  parseJson stands for JSON.parse, returning none
on a parse error. -/
def handleHookRequest (parseJson : String → Option HookData) (req : HookRequest) :
    HookResponse × List HookEffect :=
  if req.method = "POST" ∧ (req.url = "/hook" ∨ req.url = "/hook/session-start") then
    match req.read with
    | .timedOut => (⟨408, "timeout"⟩, [])
    | .done body =>
      let data := (parseJson body).getD emptyHookData
      let sessionIdOpt := if jsTruthy data.session_id then data.session_id else data.sessionId
      let effects :=
        if jsTruthy sessionIdOpt then
          let sid := sessionIdOpt.getD ""
          (if data.hook_event_name = some "SessionStart" ∨ req.url = "/hook/session-start"
            then [HookEffect.sessionHook sid] else [])
          ++ (match data.hook_event_name with
              | some ev => if ev = "" then [] else [HookEffect.hookEvent ev sid]
              | none => [])
        else []
      (⟨200, "ok"⟩, effects)
  else (⟨404, "not found"⟩, [])

/-- Bridge between List.contains and membership for lawful BEq types. -/
theorem list_contains_iff_mem {α : Type} [BEq α] [LawfulBEq α] (l : List α) (a : α) :
    l.contains a = true ↔ a ∈ l := by
  simp [List.contains, List.elem_iff]

/-- Pushing onto an open queue with no parked waiter appends in order. -/
theorem pushAll_open_no_waiter (xs : List (String × Option (List ImageAttachment)))
    (l : List QueueMessage) (c : Bool) :
    MessageQueue.pushAll ⟨l, false, c, false⟩ xs
      = ⟨l ++ xs.map (fun p => ⟨p.1, p.2⟩), false, c, false⟩ := by
  induction xs generalizing l with
  | nil => simp [MessageQueue.pushAll]
  | cons x rest ih =>
    have hstep : MessageQueue.pushAll ⟨l, false, c, false⟩ (x :: rest)
        = MessageQueue.pushAll ⟨l ++ [⟨x.1, x.2⟩], false, c, false⟩ rest := rfl
    rw [hstep, ih]
    simp

/-- Waiting M times on an open queue returns the backlog head-first and then
suspends; the waiter flag ends set when the backlog ran out. -/
theorem waitMany_open (M : Nat) (l : List QueueMessage) (w c : Bool) :
    MessageQueue.waitMany ⟨l, w, c, false⟩ M
      = ((l.take M).map (fun m => WaitOutcome.result (some m))
           ++ List.replicate (M - l.length) WaitOutcome.suspended,
         ⟨l.drop M, w || decide (l.length < M), c, false⟩) := by
  induction M generalizing l w with
  | zero => simp [MessageQueue.waitMany]
  | succ k ih =>
    cases l with
    | nil =>
      have hstep : MessageQueue.waitMany ⟨[], w, c, false⟩ (k + 1)
          = ((MessageQueue.waitMany ⟨[], true, c, false⟩ k).1.cons WaitOutcome.suspended,
             (MessageQueue.waitMany ⟨[], true, c, false⟩ k).2) := rfl
      rw [hstep, ih]
      simp [List.replicate_succ]
    | cons m rest =>
      have hstep : MessageQueue.waitMany ⟨m :: rest, w, c, false⟩ (k + 1)
          = ((MessageQueue.waitMany ⟨rest, w, c, false⟩ k).1.cons (WaitOutcome.result (some m)),
             (MessageQueue.waitMany ⟨rest, w, c, false⟩ k).2) := rfl
      rw [hstep, ih]
      simp [Nat.succ_sub_succ, Nat.succ_lt_succ_iff]

/-- Claim C4: on a fresh MessageQueue, N pushes followed by M waitForMessage
calls return the first M pushed messages in push order; when N < M the first
N waits resolve to the N pushed values in push order, the remaining M - N
calls suspend, and a later push satisfies the suspension with its value. -/
theorem messageQueue_push_then_wait_order :
    (∀ (xs : List (String × Option (List ImageAttachment))) (M : Nat),
       ((MessageQueue.fresh.pushAll xs).waitMany M).1
         = (xs.take M).map (fun p => WaitOutcome.result (some ⟨p.1, p.2⟩))
             ++ List.replicate (M - xs.length) WaitOutcome.suspended)
    ∧ (∀ (xs : List (String × Option (List ImageAttachment))) (M : Nat)
         (m : String) (i : Option (List ImageAttachment)), xs.length < M →
       (((MessageQueue.fresh.pushAll xs).waitMany M).2.push m i).2.resolvedWith
         = some ⟨m, i⟩) := by
  have hfresh : ∀ xs : List (String × Option (List ImageAttachment)),
      MessageQueue.fresh.pushAll xs = ⟨xs.map (fun p => ⟨p.1, p.2⟩), false, false, false⟩ := by
    intro xs
    simpa using pushAll_open_no_waiter xs [] false
  constructor
  · intro xs M
    rw [hfresh, waitMany_open]
    simp [List.map_take, List.map_map, Function.comp]
    rfl
  · intro xs M m i h
    rw [hfresh, waitMany_open]
    simp [MessageQueue.push, List.length_map, h]

/-- Witness for C4: one push, two waits, then a push resolving the waiter. -/
theorem messageQueue_push_then_wait_order_witness :
    ((MessageQueue.fresh.pushAll [("a", none)]).waitMany 2).1
      = [WaitOutcome.result (some ⟨"a", none⟩), WaitOutcome.suspended]
    ∧ (((MessageQueue.fresh.pushAll [("a", none)]).waitMany 2).2.push "b" none).2.resolvedWith
      = some ⟨"b", none⟩ :=
  ⟨by simpa using messageQueue_push_then_wait_order.1 [("a", none)] 2,
   messageQueue_push_then_wait_order.2 [("a", none)] 2 "b" none (by decide)⟩

/-- Claim C5: reset() on a queue with one suspended waiter resolves that
waiter with null exactly once (the cleared resolver cannot fire on a second
reset) and empties the backlog; reset() with no waiter just empties the
backlog. -/
theorem messageQueue_reset_wakes_waiter (q : MessageQueue) :
    (q.waitResolve = true →
       q.reset = ({ q with queue := [], waitResolve := false }, true)
       ∧ (q.reset.1.reset).2 = false)
    ∧ (q.waitResolve = false →
       q.reset = ({ q with queue := [] }, false)) := by
  constructor
  · intro h
    constructor
    · simp [MessageQueue.reset, h]
    · simp [MessageQueue.reset, h]
  · intro h
    simp [MessageQueue.reset, h]

/-- Witness for C5 on concrete queues with and without a suspended waiter. -/
theorem messageQueue_reset_wakes_waiter_witness :
    (MessageQueue.reset ⟨[⟨"a", none⟩], true, false, false⟩ = (⟨[], false, false, false⟩, true)
      ∧ ((MessageQueue.reset ⟨[⟨"a", none⟩], true, false, false⟩).1.reset).2 = false)
    ∧ MessageQueue.reset ⟨[⟨"a", none⟩], false, false, false⟩ = (⟨[], false, false, false⟩, false) :=
  ⟨(messageQueue_reset_wakes_waiter ⟨[⟨"a", none⟩], true, false, false⟩).1 rfl,
   (messageQueue_reset_wakes_waiter ⟨[⟨"a", none⟩], false, false, false⟩).2 rfl⟩

/-- A closed queue is inert under any sequence of operations. -/
theorem runQueueOps_closed (ops : List QueueOp) (q : MessageQueue) (h : q.closed = true) :
    runQueueOps q ops
      = (q, ops.map (fun op => match op with
          | .pushOp _ _ => QueueOpResult.pushed ⟨none, none⟩
          | .waitOp => QueueOpResult.waited (.result none))) := by
  induction ops with
  | nil => simp [runQueueOps]
  | cons op rest ih =>
    cases op with
    | pushOp m i => simp [runQueueOps, MessageQueue.push, h, ih]
    | waitOp => simp [runQueueOps, MessageQueue.waitForMessage, h, ih]

/-- Claim C10: after close(), the queue stays permanently drained and inert:
every later push is a no-op with no callback and no waiter resolution, every
later waitForMessage returns null immediately, and size stays 0. -/
theorem messageQueue_close_inert :
    ∀ (q : MessageQueue) (ops : List QueueOp),
      runQueueOps (q.close).1 ops
        = ((q.close).1, ops.map (fun op => match op with
            | .pushOp _ _ => QueueOpResult.pushed ⟨none, none⟩
            | .waitOp => QueueOpResult.waited (.result none)))
      ∧ (q.close).1.size = 0
      ∧ (runQueueOps (q.close).1 ops).1.size = 0 := by
  intro q ops
  have h1 : (q.close).1.closed = true ∧ (q.close).1.queue = [] := by
    by_cases hw : q.waitResolve = true <;>
      simp [MessageQueue.close, MessageQueue.reset, hw]
  have h2 := runQueueOps_closed ops (q.close).1 h1.1
  refine ⟨h2, ?_, ?_⟩
  · simp [MessageQueue.size, h1.2]
  · rw [h2]
    simp [MessageQueue.size, h1.2]

/-- Claim C1: whenever the remote driver issues a new permission request for
a tool that is not cached as always-allowed, any currently parked pending
permission response is cleared (regardless of its age) before the request is
forwarded: after the handler returns, hasPendingPermissionResponse is false,
and the request event was sent. -/
theorem onPermissionRequest_clears_pending :
    ∀ (s : Session) (now : Nat) (toolName : String),
      s.isToolAlwaysAllowed toolName = false →
      (onPermissionRequest s now toolName).1.hasPendingPermissionResponse = false
      ∧ (onPermissionRequest s now toolName).2 = true := by
  intro s now toolName h
  have h1 : (s.clearPendingPermissionResponse now 0).pendingPermissionResponse = none := by
    cases hp : s.pendingPermissionResponse <;>
      simp [Session.clearPendingPermissionResponse, hp]
  constructor
  · by_cases ht : toolName = "AskUserQuestion"
    · subst ht
      simp [onPermissionRequest, h, Session.hasPendingPermissionResponse, h1]
    · simp [onPermissionRequest, h, ht, Session.hasPendingPermissionResponse, h1]
  · simp [onPermissionRequest, h]

/-- Witness for C1: a parked response of any age is cleared when a request
for a not-always-allowed tool comes in. -/
theorem onPermissionRequest_clears_pending_witness :
    (onPermissionRequest ⟨false, some (.yes, 0), [], MessageQueue.fresh⟩ 99999
        "Edit").1.hasPendingPermissionResponse = false
    ∧ (onPermissionRequest ⟨false, some (.yes, 0), [], MessageQueue.fresh⟩ 99999
        "Edit").2 = true :=
  onPermissionRequest_clears_pending ⟨false, some (.yes, 0), [], MessageQueue.fresh⟩ 99999
    "Edit" rfl

/-- Claim C2: a permission response parked while no resolver is outstanding
and consumed with an age within the 30000 ms TTL is returned exactly and the
slot cleared (an immediate second consume returns null); consumed with an
age beyond the TTL it returns null and the slot is also cleared. -/
theorem consumePendingPermissionResponse_ttl :
    ∀ (s : Session) (t now : Nat) (r : PermissionResponse),
      s.permissionResolver = false →
      ((now - t ≤ PERMISSION_RESPONSE_TTL_MS →
         ((s.handlePermissionResponse t r).1.consumePendingPermissionResponse now
             PERMISSION_RESPONSE_TTL_MS).1 = some r
         ∧ ((s.handlePermissionResponse t r).1.consumePendingPermissionResponse now
             PERMISSION_RESPONSE_TTL_MS).2.pendingPermissionResponse = none
         ∧ (((s.handlePermissionResponse t r).1.consumePendingPermissionResponse now
             PERMISSION_RESPONSE_TTL_MS).2.consumePendingPermissionResponse now
             PERMISSION_RESPONSE_TTL_MS).1 = none)
       ∧ (PERMISSION_RESPONSE_TTL_MS < now - t →
         ((s.handlePermissionResponse t r).1.consumePendingPermissionResponse now
             PERMISSION_RESPONSE_TTL_MS).1 = none
         ∧ ((s.handlePermissionResponse t r).1.consumePendingPermissionResponse now
             PERMISSION_RESPONSE_TTL_MS).2.pendingPermissionResponse = none)) := by
  intro s t now r hres
  have hpark : (s.handlePermissionResponse t r).1
      = { s with pendingPermissionResponse := some (r, t) } := by
    simp [Session.handlePermissionResponse, hres]
  constructor
  · intro hage
    have hnot : ¬ PERMISSION_RESPONSE_TTL_MS < now - t := not_lt.mpr hage
    rw [hpark]
    simp [Session.consumePendingPermissionResponse, hnot]
  · intro hage
    rw [hpark]
    simp [Session.consumePendingPermissionResponse, hage]

/-- Witness for C2: a response parked at time 0 is returned at time 1000 and
gone on the second consume; parked at time 0 and consumed at 40000 it is
expired and cleared. -/
theorem consumePendingPermissionResponse_ttl_witness :
    (((Session.handlePermissionResponse ⟨false, none, [], MessageQueue.fresh⟩ 0
          .always).1.consumePendingPermissionResponse 1000
          PERMISSION_RESPONSE_TTL_MS).1 = some .always
      ∧ ((Session.handlePermissionResponse ⟨false, none, [], MessageQueue.fresh⟩ 0
          .always).1.consumePendingPermissionResponse 1000
          PERMISSION_RESPONSE_TTL_MS).2.pendingPermissionResponse = none
      ∧ (((Session.handlePermissionResponse ⟨false, none, [], MessageQueue.fresh⟩ 0
          .always).1.consumePendingPermissionResponse 1000
          PERMISSION_RESPONSE_TTL_MS).2.consumePendingPermissionResponse 1000
          PERMISSION_RESPONSE_TTL_MS).1 = none)
    ∧ (((Session.handlePermissionResponse ⟨false, none, [], MessageQueue.fresh⟩ 0
          .always).1.consumePendingPermissionResponse 40000
          PERMISSION_RESPONSE_TTL_MS).1 = none
      ∧ ((Session.handlePermissionResponse ⟨false, none, [], MessageQueue.fresh⟩ 0
          .always).1.consumePendingPermissionResponse 40000
          PERMISSION_RESPONSE_TTL_MS).2.pendingPermissionResponse = none) :=
  ⟨(consumePendingPermissionResponse_ttl ⟨false, none, [], MessageQueue.fresh⟩ 0 1000
      .always rfl).1 (by decide),
   (consumePendingPermissionResponse_ttl ⟨false, none, [], MessageQueue.fresh⟩ 0 40000
      .always rfl).2 (by decide)⟩

/-- Claim C3: AskUserQuestion is never reported always-allowed, recording an
allow-always decision for it leaves the session unchanged, and for every
other tool name the always-allowed check succeeds right after marking. -/
theorem askUserQuestion_never_always_allowed :
    ∀ (s : Session),
      s.isToolAlwaysAllowed "AskUserQuestion" = false
      ∧ s.markToolAlwaysAllowed "AskUserQuestion" = s
      ∧ ∀ t : String, t ≠ "AskUserQuestion" →
          (s.markToolAlwaysAllowed t).isToolAlwaysAllowed t = true := by
  intro s
  refine ⟨by simp [Session.isToolAlwaysAllowed],
          by simp [Session.markToolAlwaysAllowed], ?_⟩
  intro t ht
  simp only [Session.markToolAlwaysAllowed, Session.isToolAlwaysAllowed, if_neg ht]
  exact (list_contains_iff_mem _ t).mpr (List.mem_insert_self t s.alwaysAllowedTools)

/-- Witness for C3: AskUserQuestion stays unprotected on a concrete session,
while another tool becomes always-allowed after marking. -/
theorem askUserQuestion_never_always_allowed_witness :
    Session.isToolAlwaysAllowed ⟨false, none, [], MessageQueue.fresh⟩ "AskUserQuestion" = false
    ∧ (Session.markToolAlwaysAllowed ⟨false, none, [], MessageQueue.fresh⟩
        "Bash").isToolAlwaysAllowed "Bash" = true :=
  ⟨(askUserQuestion_never_always_allowed ⟨false, none, [], MessageQueue.fresh⟩).1,
   (askUserQuestion_never_always_allowed ⟨false, none, [], MessageQueue.fresh⟩).2.2
     "Bash" (by decide)⟩

/-- Claim C7: an unexpected close with fewer than 50 attempts made increments
the counter and schedules a reconnect after min(attempt * 1000 ms, 10000 ms);
with 50 attempts exhausted it notifies the close handler and schedules no
reconnect; a successful reopen resets the counter to zero; a caller-initiated
close never triggers a reconnect. -/
theorem wsClient_reconnect_policy :
    (∀ s : WSClientState, s.isIntentionallyClosed = false → s.reconnectAttempts < 50 →
       wsOnClose s = ({ s with reconnectAttempts := s.reconnectAttempts + 1 },
         .reconnectAfter (min (1000 * (s.reconnectAttempts + 1)) 10000)))
    ∧ (∀ s : WSClientState, s.isIntentionallyClosed = false → 50 ≤ s.reconnectAttempts →
       wsOnClose s = (s, .notifyCloseHandler))
    ∧ (∀ s : WSClientState, (wsOnOpen s).reconnectAttempts = 0)
    ∧ (∀ s : WSClientState, (wsOnClose (wsClose s)).2 = .notifyCloseHandler) := by
  refine ⟨?_, ?_, ?_, ?_⟩
  · intro s h1 h2
    simp [wsOnClose, h1, h2, maxReconnects]
  · intro s h1 h2
    have hnot : ¬ s.reconnectAttempts < maxReconnects := by
      simp [maxReconnects]
      exact h2
    simp [wsOnClose, h1, hnot]
  · intro s
    rfl
  · intro s
    simp [wsOnClose, wsClose]

/-- Witness for C7: attempt 3 schedules a 4 s reconnect; at 50 attempts the
close handler is notified instead. -/
theorem wsClient_reconnect_policy_witness :
    wsOnClose ⟨3, false⟩ = (⟨4, false⟩, .reconnectAfter 4000)
    ∧ wsOnClose ⟨50, false⟩ = (⟨50, false⟩, .notifyCloseHandler) :=
  ⟨wsClient_reconnect_policy.1 ⟨3, false⟩ rfl (by decide),
   wsClient_reconnect_policy.2.1 ⟨50, false⟩ rfl (by decide)⟩

/-- Facts about one sync-pass fold: the processed set only grows, every key
of the file ends up processed, forwarded keys are distinct, and each
forwarded key was new and is recorded. -/
theorem syncFold_spec (msgs : List RawJSONLine) (processed : List String) :
    (∀ k, k ∈ processed → k ∈ (syncFold processed msgs).1)
    ∧ (∀ m, m ∈ msgs → messageKey m ∈ (syncFold processed msgs).1)
    ∧ ((syncFold processed msgs).2.map messageKey).Nodup
    ∧ (∀ k, k ∈ (syncFold processed msgs).2.map messageKey →
        k ∉ processed ∧ k ∈ (syncFold processed msgs).1) := by
  induction msgs generalizing processed with
  | nil => simp [syncFold]
  | cons a rest ih =>
    by_cases h : processed.contains (messageKey a) = true
    · obtain ⟨mono, all, nodup, mem⟩ := ih processed
      have hmem : messageKey a ∈ processed := (list_contains_iff_mem _ _).mp h
      have hstep : syncFold processed (a :: rest) = syncFold processed rest := by
        simp [syncFold, h, hmem]
      rw [hstep]
      refine ⟨mono, ?_, nodup, mem⟩
      intro m hm
      rcases List.mem_cons.mp hm with rfl | hm'
      · exact mono _ hmem
      · exact all _ hm'
    · obtain ⟨mono, all, nodup, mem⟩ := ih (messageKey a :: processed)
      have hnotmem : messageKey a ∉ processed := fun hm =>
        h ((list_contains_iff_mem _ _).mpr hm)
      have hstep : syncFold processed (a :: rest)
          = ((syncFold (messageKey a :: processed) rest).1,
             a :: (syncFold (messageKey a :: processed) rest).2) := by
        simp [syncFold, h, hnotmem]
      rw [hstep]
      refine ⟨?_, ?_, ?_, ?_⟩
      · intro k hk
        exact mono _ (List.mem_cons_of_mem _ hk)
      · intro m hm
        rcases List.mem_cons.mp hm with rfl | hm'
        · exact mono _ (List.mem_cons_self _ _)
        · exact all _ hm'
      · simp only [List.map_cons, List.nodup_cons]
        refine ⟨?_, nodup⟩
        intro hx
        exact (mem _ hx).1 (List.mem_cons_self _ _)
      · intro k hk
        simp only [List.map_cons, List.mem_cons] at hk
        rcases hk with rfl | hk'
        · exact ⟨hnotmem, mono _ (List.mem_cons_self _ _)⟩
        · exact ⟨fun hkp => (mem _ hk').1 (List.mem_cons_of_mem _ hkp), (mem _ hk').2⟩

/-- A sync pass over a file whose keys are all processed forwards nothing. -/
theorem syncFold_all_seen (msgs : List RawJSONLine) (processed : List String)
    (h : ∀ m, m ∈ msgs → messageKey m ∈ processed) :
    syncFold processed msgs = (processed, []) := by
  induction msgs with
  | nil => simp [syncFold]
  | cons a rest ih =>
    have hmem : messageKey a ∈ processed := h a (List.mem_cons_self _ _)
    have hc : processed.contains (messageKey a) = true :=
      (list_contains_iff_mem _ _).mpr hmem
    have hstep : syncFold processed (a :: rest) = syncFold processed rest := by
      simp [syncFold, hc, hmem]
    rw [hstep]
    exact ih (fun m hm => h m (List.mem_cons_of_mem _ hm))

/-- Across any run of sync passes and retargets, forwarded keys never repeat,
every forwarded key was fresh, and the processed set only grows. -/
theorem runScanner_spec (ops : List ScanOp) (sc : SessionScanner) :
    ((runScanner sc ops).2.map messageKey).Nodup
    ∧ (∀ k, k ∈ (runScanner sc ops).2.map messageKey → k ∉ sc.processedMessageKeys)
    ∧ (∀ k, k ∈ sc.processedMessageKeys → k ∈ (runScanner sc ops).1.processedMessageKeys) := by
  induction ops generalizing sc with
  | nil => simp [runScanner]
  | cons op rest ih =>
    cases op with
    | newSessionOp sid =>
      have hstep : runScanner sc (.newSessionOp sid :: rest)
          = runScanner (sc.onNewSession sid) rest := rfl
      have hp : (sc.onNewSession sid).processedMessageKeys = sc.processedMessageKeys := by
        by_cases h : sc.currentSessionId = some sid <;> simp [SessionScanner.onNewSession, h]
      obtain ⟨n1, n2, n3⟩ := ih (sc.onNewSession sid)
      rw [hstep]
      refine ⟨n1, ?_, ?_⟩
      · intro k hk
        have := n2 k hk
        rwa [hp] at this
      · intro k hk
        exact n3 k (by rw [hp]; exact hk)
    | syncOp fs =>
      cases hcur : sc.currentSessionId with
      | none =>
        have hsync : sc.sync fs = (sc, []) := by simp [SessionScanner.sync, hcur]
        have hstep : runScanner sc (.syncOp fs :: rest)
            = ((runScanner sc rest).1, [] ++ (runScanner sc rest).2) := by
          simp [runScanner, hsync]
        obtain ⟨n1, n2, n3⟩ := ih sc
        rw [hstep]
        exact ⟨n1, n2, n3⟩
      | some sid =>
        obtain ⟨monoS, allS, nodupS, memS⟩ := syncFold_spec (fs sid) sc.processedMessageKeys
        have hsync : sc.sync fs
            = ({ sc with
                  processedMessageKeys := (syncFold sc.processedMessageKeys (fs sid)).1 },
               (syncFold sc.processedMessageKeys (fs sid)).2) := by
          simp [SessionScanner.sync, hcur]
        obtain ⟨n1, n2, n3⟩ :=
          ih { sc with processedMessageKeys := (syncFold sc.processedMessageKeys (fs sid)).1 }
        have hstep : runScanner sc (.syncOp fs :: rest)
            = ((runScanner
                  { sc with
                    processedMessageKeys := (syncFold sc.processedMessageKeys (fs sid)).1 }
                  rest).1,
               (syncFold sc.processedMessageKeys (fs sid)).2
                 ++ (runScanner
                      { sc with
                        processedMessageKeys :=
                          (syncFold sc.processedMessageKeys (fs sid)).1 }
                      rest).2) := by
          simp [runScanner, hsync]
        rw [hstep]
        refine ⟨?_, ?_, ?_⟩
        · rw [List.map_append]
          refine List.Nodup.append nodupS n1 ?_
          intro k hk1 hk2
          exact n2 k hk2 ((memS k hk1).2)
        · intro k hk
          rw [List.map_append, List.mem_append] at hk
          rcases hk with hk1 | hk2
          · exact (memS k hk1).1
          · intro hkp
            exact n2 k hk2 (monoS k hkp)
        · intro k hk
          exact n3 k (monoS k hk)

/-- Claim C6: each transcript messageKey is forwarded via onMessage at most
once per scanner instance across any sequence of sync passes and retargets;
a repeated sync over an unchanged file forwards nothing new; and onNewSession
keeps the processed-key set, so retargeting never replays a forwarded key. -/
theorem sessionScanner_forwards_at_most_once :
    (∀ (sc : SessionScanner) (ops : List ScanOp),
       ((runScanner sc ops).2.map messageKey).Nodup)
    ∧ (∀ (sc : SessionScanner) (fs : String → List RawJSONLine),
       ((sc.sync fs).1.sync fs).2 = [])
    ∧ (∀ (sc : SessionScanner) (sid : String),
       (sc.onNewSession sid).processedMessageKeys = sc.processedMessageKeys) := by
  refine ⟨?_, ?_, ?_⟩
  · intro sc ops
    exact (runScanner_spec ops sc).1
  · intro sc fs
    cases hcur : sc.currentSessionId with
    | none => simp [SessionScanner.sync, hcur]
    | some sid =>
      have hall : ∀ m, m ∈ fs sid →
          messageKey m ∈ (syncFold sc.processedMessageKeys (fs sid)).1 :=
        (syncFold_spec (fs sid) sc.processedMessageKeys).2.1
      have h1 : sc.sync fs
          = ({ sc with
                processedMessageKeys := (syncFold sc.processedMessageKeys (fs sid)).1 },
             (syncFold sc.processedMessageKeys (fs sid)).2) := by
        simp [SessionScanner.sync, hcur]
      rw [h1]
      simp [SessionScanner.sync, hcur, syncFold_all_seen (fs sid) _ hall]
  · intro sc sid
    by_cases h : sc.currentSessionId = some sid <;> simp [SessionScanner.onNewSession, h]

/-- Claim C8: when the query loop throws while resuming a specific prior
session and the abort signal is not set, claudeRemote retries exactly once
with no resume target and the same first message, and a second failure is
swallowed (claudeRemote returns startFrom normally); with no resume target
or with the abort signal set, no retry occurs. -/
theorem claudeRemote_resume_retry :
    (∀ (sid fm : String) (runQ : Option String → String → QueryOutcome),
       runQ (some sid) fm = .err →
       (claudeRemoteRetry (some sid) false fm runQ).attempts
           = [(some sid, fm), (none, fm)]
       ∧ (runQ none fm = .err →
           claudeRemoteRetry (some sid) false fm runQ
             = ⟨some sid, [(some sid, fm), (none, fm)]⟩))
    ∧ (∀ (fm : String) (aborted : Bool) (runQ : Option String → String → QueryOutcome),
        (claudeRemoteRetry none aborted fm runQ).attempts = [(none, fm)])
    ∧ (∀ (sid fm : String) (runQ : Option String → String → QueryOutcome),
        (claudeRemoteRetry (some sid) true fm runQ).attempts = [(some sid, fm)]) := by
  refine ⟨?_, ?_, ?_⟩
  · intro sid fm runQ h1
    constructor
    · cases h2 : runQ none fm <;> simp [claudeRemoteRetry, h1, h2]
    · intro h2
      simp [claudeRemoteRetry, h1, h2]
  · intro fm aborted runQ
    cases h1 : runQ none fm <;> simp [claudeRemoteRetry, h1]
  · intro sid fm runQ
    cases h1 : runQ (some sid) fm <;> simp [claudeRemoteRetry, h1]

/-- Witness for C8: both attempts fail; the fresh retry used the same first
message and the failure was swallowed, returning the original target. -/
theorem claudeRemote_resume_retry_witness :
    (claudeRemoteRetry (some "s1") false "hello" (fun _ _ => .err)).attempts
        = [(some "s1", "hello"), (none, "hello")]
    ∧ claudeRemoteRetry (some "s1") false "hello" (fun _ _ => .err)
        = ⟨some "s1", [(some "s1", "hello"), (none, "hello")]⟩ :=
  ⟨(claudeRemote_resume_retry.1 "s1" "hello" (fun _ _ => .err) rfl).1,
   (claudeRemote_resume_retry.1 "s1" "hello" (fun _ _ => .err) rfl).2 rfl⟩

/-- Claim C9 counterexample: a POST to the legacy path /hook/session-start is
not a POST to /hook, yet it is answered 200, not 404 as the claim states. -/
theorem hookServer_legacy_path_not_404 :
    ("/hook/session-start" : String) ≠ "/hook"
    ∧ (handleHookRequest (fun _ => none)
        ⟨"POST", "/hook/session-start", .done ""⟩).1.status = 200
    ∧ (handleHookRequest (fun _ => none)
        ⟨"POST", "/hook/session-start", .done ""⟩).1.status ≠ 404 := by
  refine ⟨by decide, rfl, by decide⟩

/-- Claim C9 (amended): a POST to /hook whose body is read in time is
answered 200 ok even when the body is malformed JSON (treated as empty, so
no callbacks fire); a POST to /hook or to the legacy /hook/session-start
that exceeds the read timeout is answered 408; and any request that is not a
POST to /hook or to the legacy /hook/session-start is answered 404. -/
theorem hookServer_responses :
    (∀ (p : String → Option HookData) (url body : String),
        url = "/hook" ∨ url = "/hook/session-start" →
        (handleHookRequest p ⟨"POST", url, .done body⟩).1 = ⟨200, "ok"⟩)
    ∧ (∀ (p : String → Option HookData) (url : String),
        url = "/hook" ∨ url = "/hook/session-start" →
        (handleHookRequest p ⟨"POST", url, .timedOut⟩).1 = ⟨408, "timeout"⟩)
    ∧ (∀ (p : String → Option HookData) (req : HookRequest),
        ¬(req.method = "POST" ∧ (req.url = "/hook" ∨ req.url = "/hook/session-start")) →
        (handleHookRequest p req).1 = ⟨404, "not found"⟩)
    ∧ (∀ (p : String → Option HookData) (url body : String),
        url = "/hook" ∨ url = "/hook/session-start" → p body = none →
        (handleHookRequest p ⟨"POST", url, .done body⟩).2 = []) := by
  refine ⟨?_, ?_, ?_, ?_⟩
  · intro p url body hurl
    rcases hurl with rfl | rfl <;> simp [handleHookRequest]
  · intro p url hurl
    rcases hurl with rfl | rfl <;> simp [handleHookRequest]
  · intro p req hreq
    simp [handleHookRequest, hreq]
  · intro p url body hurl hp
    rcases hurl with rfl | rfl <;> simp [handleHookRequest, hp, emptyHookData, jsTruthy]

/-- Witness for C9 (amended): concrete requests exercising the 200 path on
both accepted URLs, the 408, the 404, and the malformed-body path. -/
theorem hookServer_responses_witness :
    (handleHookRequest (fun _ => none) ⟨"POST", "/hook", .done "not json"⟩).1 = ⟨200, "ok"⟩
    ∧ (handleHookRequest (fun _ => none)
        ⟨"POST", "/hook/session-start", .done "not json"⟩).1 = ⟨200, "ok"⟩
    ∧ (handleHookRequest (fun _ => none) ⟨"POST", "/hook", .timedOut⟩).1 = ⟨408, "timeout"⟩
    ∧ (handleHookRequest (fun _ => none) ⟨"GET", "/hook", .done ""⟩).1 = ⟨404, "not found"⟩
    ∧ (handleHookRequest (fun _ => none)
        ⟨"POST", "/hook/session-start", .done "not json"⟩).2 = [] :=
  ⟨hookServer_responses.1 (fun _ => none) "/hook" "not json" (Or.inl rfl),
   hookServer_responses.1 (fun _ => none) "/hook/session-start" "not json" (Or.inr rfl),
   hookServer_responses.2.1 (fun _ => none) "/hook" (Or.inl rfl),
   hookServer_responses.2.2.1 (fun _ => none) ⟨"GET", "/hook", .done ""⟩ (by decide),
   hookServer_responses.2.2.2 (fun _ => none) "/hook/session-start" "not json"
     (Or.inr rfl) rfl⟩
